import Mathlib

/-!
Verification of the `caddy-maxmind-geolocation` request matcher.

The module filters HTTP requests by the country of the source IP address.
The core is `checkAllowed` (a pure decision over allow/deny country lists)
and `Match` (the per-request state machine: fast-accept when unconfigured,
split host/port, parse the host as an IP, look the address up in the
ip2location database, then decide).

The Go standard library (`net.SplitHostPort`, `net.ParseIP`) and the
ip2location database are external collaborators of the repository; they are
modelled as an abstract environment (`GeoEnv`) and an abstract lookup
function (`dbInst`).  The logger is modelled by its presence (`logger`),
and every log call of the source is recorded as an event in the result
trace.  The result of `Match` is instrumented with the decision, whether
the database lookup was reached, whether the policy lists were consulted,
the emitted log events, and the matcher state after the call (the Go code
never assigns to a field of the receiver, so the embedding threads the
state through unchanged).
-/

namespace CaddyGeo

/-- A parsed IP address, represented by its canonical textual form
(`addr.String()` in Go), which is the only observation `Match` makes of it. -/
abbrev IPAddr := String

/-- `ip2location.IP2Locationrecord`, restricted to the one field read by
`Match`. -/
structure IP2Locationrecord where
  Country_short : String
deriving Repr, DecidableEq

/-- The matcher configuration and owned resources, from the
`MaxmindGeolocation` struct of `main.go`.  `dbInst` is the opened database
handle, modelled by the observable behaviour of `Get_country_short` on the
canonical address string: the returned record together with an optional
error (Go's multiple-return `(record, err)`).  `logger` records whether a
zap logger is present (`m.logger != nil`). -/
structure MaxmindGeolocation where
  DbPath : String
  LogPath : String
  AllowCountries : List String
  DenyCountries : List String
  dbInst : IPAddr → IP2Locationrecord × Option String
  logger : Bool

/-- The part of the HTTP request read by `Match`. -/
structure Request where
  RemoteAddr : String

/-- The Go `net` package functions used by `Match`, as an abstract
environment.  `splitHostPort` models `net.SplitHostPort`: it returns
`(host, port, err)` as Go does, where the host and port components are
populated even when an error is reported.  `parseIP` models
`net.ParseIP` composed with `String()`: `none` when the input is not a
valid IP address. -/
structure GeoEnv where
  splitHostPort : String → String × String × Option String
  parseIP : String → Option IPAddr

/-- The log calls of `Match`, in source order. -/
inductive LogEvent where
  | warnSplit (address : String)
  | warnParse (address : String)
  | warnLookup (address : String) (err : String)
  | debugDetected (ip : String) (country : String)
  | debugNotAllowed (country : String)
deriving Repr, DecidableEq

/-- Instrumented result of one `Match` call: the boolean decision, whether
the database lookup (`Get_country_short`) was invoked, whether
`checkAllowed` (the policy lists) was consulted, the log events emitted,
and the matcher state after the call. -/
structure MatchResult where
  decision : Bool
  resolverInvoked : Bool
  policyConsulted : Bool
  logs : List LogEvent
  finalState : MaxmindGeolocation

/-- The membership loop of `checkAllowed`
(`for _, i := range list { if i == item { ... } }`). -/
def listContains (xs : List String) (item : String) : Bool :=
  match xs with
  | [] => false
  | i :: rest => if i = item then true else listContains rest item

/-- Lines 149–151 of `checkAllowed`: an empty country code or the literal
`"0"` is replaced by the sentinel `"UNK"` before any membership test. -/
def normalizeCode (item : String) : String :=
  if item = "" ∨ item = "0" then "UNK" else item

/-- `checkAllowed` from `main.go` (the receiver is unused in the source and
therefore omitted): normalize the code, then deny-list check (reject on
membership), else allow-list check (accept on membership), else accept. -/
def checkAllowed (item : String) (allowedList deniedList : List String) : Bool :=
  let item := normalizeCode item
  if deniedList.length > 0 then
    if listContains deniedList item then false else true
  else if allowedList.length > 0 then
    if listContains allowedList item then true else false
  else
    true

/-- `Match` from `main.go`, instrumented as described on `MatchResult`. -/
def Match (m : MaxmindGeolocation) (env : GeoEnv) (r : Request) : MatchResult :=
  if m.AllowCountries.length < 1 ∧ m.DenyCountries.length < 1 then
    { decision := true, resolverInvoked := false, policyConsulted := false,
      logs := [], finalState := m }
  else
    let remoteIp := (env.splitHostPort r.RemoteAddr).1
    let splitLogs : List LogEvent :=
      match (env.splitHostPort r.RemoteAddr).2.2 with
      | some _ => if m.logger then [LogEvent.warnSplit r.RemoteAddr] else []
      | none => []
    match env.parseIP remoteIp with
    | none =>
        { decision := false, resolverInvoked := false, policyConsulted := false,
          logs := splitLogs ++ (if m.logger then [LogEvent.warnParse r.RemoteAddr] else []),
          finalState := m }
    | some addr =>
        match (m.dbInst addr).2 with
        | some e =>
            { decision := false, resolverInvoked := true, policyConsulted := false,
              logs := splitLogs ++
                (if m.logger then [LogEvent.warnLookup r.RemoteAddr e] else []),
              finalState := m }
        | none =>
            let country := (m.dbInst addr).1.Country_short
            let detectLogs := splitLogs ++
              (if m.logger then [LogEvent.debugDetected r.RemoteAddr country] else [])
            if checkAllowed country m.AllowCountries m.DenyCountries then
              { decision := true, resolverInvoked := true, policyConsulted := true,
                logs := detectLogs, finalState := m }
            else
              { decision := false, resolverInvoked := true, policyConsulted := true,
                logs := detectLogs ++
                  (if m.logger then [LogEvent.debugNotAllowed country] else []),
                finalState := m }

theorem listContains_iff_mem (xs : List String) (item : String) :
    listContains xs item = true ↔ item ∈ xs := by
  induction xs with
  | nil => simp [listContains]
  | cons i rest ih =>
      by_cases h : i = item
      · simp [listContains, h]
      · have h2 : ¬ item = i := fun heq => h heq.symm
        simp [listContains, h, h2, ih]

theorem checkAllowed_deny_branch (c : String) (a deny : List String)
    (hlen : 0 < deny.length) :
    checkAllowed c a deny =
      if listContains deny (normalizeCode c) then false else true := by
  unfold checkAllowed
  simp [hlen]

theorem listContains_ext (xs ys : List String) (h : ∀ x, x ∈ xs ↔ x ∈ ys)
    (it : String) : listContains xs it = listContains ys it := by
  have hiff : (listContains xs it = true) ↔ (listContains ys it = true) := by
    rw [listContains_iff_mem, listContains_iff_mem]
    exact h it
  cases hx : listContains xs it <;> cases hy : listContains ys it
  · rfl
  · rw [hx, hy] at hiff
    exact absurd (hiff.mpr rfl) Bool.false_ne_true
  · rw [hx, hy] at hiff
    exact absurd (hiff.mp rfl) Bool.false_ne_true
  · rfl

theorem nil_iff_of_mem_ext (xs ys : List String) (h : ∀ x, x ∈ xs ↔ x ∈ ys) :
    xs = [] ↔ ys = [] := by
  cases xs with
  | nil =>
      cases ys with
      | nil => simp
      | cons y ys2 =>
          have hy : y ∈ ([] : List String) := (h y).mpr (List.mem_cons_self y ys2)
          simp at hy
  | cons x xs2 =>
      cases ys with
      | nil =>
          have hx : x ∈ ([] : List String) := (h x).mp (List.mem_cons_self x xs2)
          simp at hx
      | cons y ys2 => simp

/-- C2: with a non-empty deny list, `checkAllowed` accepts exactly when the
normalized code is not a member of the deny list, and the allow list is
never consulted (the result does not depend on it). -/
theorem deny_nonempty_decides (c : String) (allow deny : List String)
    (hd : deny ≠ []) :
    (checkAllowed c allow deny = true ↔ normalizeCode c ∉ deny)
    ∧ ∀ allow2, checkAllowed c allow2 deny = checkAllowed c allow deny := by
  have hlen : 0 < deny.length := List.length_pos.mpr hd
  refine ⟨?_, ?_⟩
  · rw [checkAllowed_deny_branch c allow deny hlen]
    by_cases hc : listContains deny (normalizeCode c) = true
    · have hmem : normalizeCode c ∈ deny := (listContains_iff_mem _ _).mp hc
      simp [hc, hmem]
    · have hmem : normalizeCode c ∉ deny :=
        fun hm => hc ((listContains_iff_mem _ _).mpr hm)
      simp [hc, hmem]
  · intro allow2
    rw [checkAllowed_deny_branch c allow deny hlen,
      checkAllowed_deny_branch c allow2 deny hlen]

/-- Witness for `deny_nonempty_decides` at a concrete input: code `"US"`,
allow list `["US"]`, deny list `["US"]` — the deny list wins. -/
theorem deny_nonempty_decides_witness :
    (checkAllowed "US" ["US"] ["US"] = true ↔ normalizeCode "US" ∉ (["US"] : List String))
    ∧ ∀ allow2, checkAllowed "US" allow2 ["US"] = checkAllowed "US" ["US"] ["US"] :=
  deny_nonempty_decides "US" ["US"] ["US"] (List.cons_ne_nil "US" [])

/-- C3: with an empty deny list and a non-empty allow list, `checkAllowed`
accepts exactly when the normalized code is a member (by string equality)
of the allow list. -/
theorem allow_nonempty_decides (c : String) (allow deny : List String)
    (hd : deny = []) (ha : allow ≠ []) :
    checkAllowed c allow deny = true ↔ normalizeCode c ∈ allow := by
  subst hd
  have hlen : 0 < allow.length := List.length_pos.mpr ha
  unfold checkAllowed
  simp [hlen, listContains_iff_mem]

/-- Witness for `allow_nonempty_decides` at a concrete input: code `"CA"`,
allow list `["US"]`, empty deny list — the request is rejected. -/
theorem allow_nonempty_decides_witness :
    checkAllowed "CA" ["US"] [] = true ↔ normalizeCode "CA" ∈ (["US"] : List String) :=
  allow_nonempty_decides "CA" ["US"] [] rfl (List.cons_ne_nil "US" [])

/-- C4: for every fixed policy, `checkAllowed` on `""`, on `"0"` and on
`"UNK"` yields the same result, because `""` and `"0"` are normalized to
the sentinel `"UNK"` before any membership test. -/
theorem normalization_collapse (allow deny : List String) :
    checkAllowed "" allow deny = checkAllowed "UNK" allow deny
    ∧ checkAllowed "0" allow deny = checkAllowed "UNK" allow deny := by
  constructor <;> rfl

/-- C7: `checkAllowed` depends on the allow and deny lists only through
membership; lists that agree as sets (any ordering, any duplication)
produce the same decision. -/
theorem decision_membership_only (c : String) (a a2 d d2 : List String)
    (ha : ∀ x, x ∈ a ↔ x ∈ a2) (hd : ∀ x, x ∈ d ↔ x ∈ d2) :
    checkAllowed c a d = checkAllowed c a2 d2 := by
  by_cases h0 : d = []
  · have h02 : d2 = [] := (nil_iff_of_mem_ext d d2 hd).mp h0
    subst h0
    subst h02
    by_cases ha0 : a = []
    · have ha02 : a2 = [] := (nil_iff_of_mem_ext a a2 ha).mp ha0
      subst ha0
      subst ha02
      rfl
    · have ha02 : a2 ≠ [] := fun h2 => ha0 ((nil_iff_of_mem_ext a a2 ha).mpr h2)
      have l1 : 0 < a.length := List.length_pos.mpr ha0
      have l2 : 0 < a2.length := List.length_pos.mpr ha02
      unfold checkAllowed
      simp [l1, l2, listContains_ext a a2 ha (normalizeCode c)]
  · have hd2 : d2 ≠ [] := fun h2 => h0 ((nil_iff_of_mem_ext d d2 hd).mpr h2)
    have l1 : 0 < d.length := List.length_pos.mpr h0
    have l2 : 0 < d2.length := List.length_pos.mpr hd2
    rw [checkAllowed_deny_branch c a d l1, checkAllowed_deny_branch c a2 d2 l2,
      listContains_ext d d2 hd (normalizeCode c)]

/-- Witness for `decision_membership_only` at concrete inputs: reordered
and duplicated lists give the same decision. -/
theorem decision_membership_only_witness :
    checkAllowed "US" ["US", "CA", "US"] [] = checkAllowed "US" ["CA", "US"] [] :=
  decision_membership_only "US" ["US", "CA", "US"] ["CA", "US"] [] []
    (fun x => by simp; tauto) (fun x => Iff.rfl)

theorem guard_false_of_nonempty (m : MaxmindGeolocation)
    (hne : m.AllowCountries ≠ [] ∨ m.DenyCountries ≠ []) :
    ¬(m.AllowCountries = [] ∧ m.DenyCountries = []) := by
  rcases hne with h | h <;> simp [h]

/-- C1: a policy with both lists empty fast-accepts every request, whatever
the raw address string, and the database lookup is never reached. -/
theorem unconfigured_open (m : MaxmindGeolocation) (env : GeoEnv) (r : Request)
    (hA : m.AllowCountries = []) (hD : m.DenyCountries = []) :
    (Match m env r).decision = true ∧ (Match m env r).resolverInvoked = false := by
  unfold Match
  simp [hA, hD]

/-- C5: with a configured policy, a host that does not parse as an IP
address makes `Match` fail closed without reaching the database lookup. -/
theorem parse_failure_fails_closed (m : MaxmindGeolocation) (env : GeoEnv)
    (r : Request)
    (hne : m.AllowCountries ≠ [] ∨ m.DenyCountries ≠ [])
    (hp : env.parseIP (env.splitHostPort r.RemoteAddr).1 = none) :
    (Match m env r).decision = false ∧ (Match m env r).resolverInvoked = false := by
  have hg := guard_false_of_nonempty m hne
  unfold Match
  simp [hg, hp]

/-- C6: with a configured policy and a parsed address, a database lookup
error makes `Match` fail closed without consulting the policy lists; the
error is absorbed (the result type of `Match` carries no error). -/
theorem lookup_error_fails_closed (m : MaxmindGeolocation) (env : GeoEnv)
    (r : Request) (addr e : String)
    (hne : m.AllowCountries ≠ [] ∨ m.DenyCountries ≠ [])
    (hp : env.parseIP (env.splitHostPort r.RemoteAddr).1 = some addr)
    (he : (m.dbInst addr).2 = some e) :
    (Match m env r).decision = false ∧ (Match m env r).policyConsulted = false := by
  have hg := guard_false_of_nonempty m hne
  unfold Match
  simp [hg, hp, he]

/-- C8: the decision returned by `Match` is the same whether a logger is
present or absent; logging is a pure side channel. -/
theorem logger_does_not_affect_decision (m : MaxmindGeolocation) (env : GeoEnv)
    (r : Request) (b : Bool) :
    (Match { m with logger := b } env r).decision = (Match m env r).decision := by
  by_cases hg : m.AllowCountries = [] ∧ m.DenyCountries = []
  · unfold Match
    simp [hg]
  · unfold Match
    rcases hp : env.parseIP (env.splitHostPort r.RemoteAddr).1 with _ | addr
    · simp [hg, hp]
    · rcases hl : (m.dbInst addr).2 with _ | e
      · by_cases hc :
          checkAllowed (m.dbInst addr).1.Country_short m.AllowCountries
            m.DenyCountries = true
        · simp [hg, hp, hl, hc]
        · simp [hg, hp, hl, hc]
      · simp [hg, hp, hl]

/-- C9: `Match` (and through it `checkAllowed`) never modifies the matcher:
the state after any call is the state before it. -/
theorem match_preserves_state (m : MaxmindGeolocation) (env : GeoEnv)
    (r : Request) : (Match m env r).finalState = m := by
  by_cases hg : m.AllowCountries = [] ∧ m.DenyCountries = []
  · unfold Match
    simp [hg]
  · unfold Match
    rcases hp : env.parseIP (env.splitHostPort r.RemoteAddr).1 with _ | addr
    · simp [hg, hp]
    · rcases hl : (m.dbInst addr).2 with _ | e
      · by_cases hc :
          checkAllowed (m.dbInst addr).1.Country_short m.AllowCountries
            m.DenyCountries = true
        · simp [hg, hp, hl, hc]
        · simp [hg, hp, hl, hc]
      · simp [hg, hp, hl]

/-- C10: with a configured policy, a failed host/port split makes `Match`
return `false` and never reach the database lookup.  The hypotheses record
the behaviour of the Go standard library: `net.SplitHostPort` returns an
empty host together with its error, and `net.ParseIP` rejects the empty
string. -/
theorem split_failure_fails_closed (m : MaxmindGeolocation) (env : GeoEnv)
    (r : Request) (p e : String)
    (hne : m.AllowCountries ≠ [] ∨ m.DenyCountries ≠ [])
    (hs : env.splitHostPort r.RemoteAddr = ("", p, some e))
    (hp : env.parseIP "" = none) :
    (Match m env r).decision = false ∧ (Match m env r).resolverInvoked = false := by
  have hg := guard_false_of_nonempty m hne
  unfold Match
  simp [hg, hs, hp]

/-! Concrete instances used by the witnesses. -/

def mUnconfigured : MaxmindGeolocation :=
  { DbPath := "IP2LOCATION-LITE-DB1.BIN", LogPath := "", AllowCountries := [],
    DenyCountries := [], dbInst := fun _ => (⟨"US"⟩, none), logger := false }

def mAllowUS : MaxmindGeolocation :=
  { DbPath := "IP2LOCATION-LITE-DB1.BIN", LogPath := "access.log",
    AllowCountries := ["US"], DenyCountries := [],
    dbInst := fun _ => (⟨"US"⟩, none), logger := true }

def mAllowUSDbErr : MaxmindGeolocation :=
  { mAllowUS with dbInst := fun _ => (⟨""⟩, some "invalid database file") }

def envParseFail : GeoEnv :=
  { splitHostPort := fun s => (s, "", none), parseIP := fun _ => none }

def envParseOk : GeoEnv :=
  { splitHostPort := fun s => (s, "80", none), parseIP := fun _ => some "1.2.3.4" }

def envSplitFail : GeoEnv :=
  { splitHostPort := fun _ => ("", "", some "missing port in address"),
    parseIP := fun _ => none }

/-- Witness for `unconfigured_open`: an unconfigured matcher accepts a
garbage address without a lookup. -/
theorem unconfigured_open_witness :
    (Match mUnconfigured envParseFail ⟨"not-an-address"⟩).decision = true
    ∧ (Match mUnconfigured envParseFail ⟨"not-an-address"⟩).resolverInvoked = false :=
  unconfigured_open mUnconfigured envParseFail ⟨"not-an-address"⟩ rfl rfl

/-- Witness for `parse_failure_fails_closed`: an unparseable host is denied
by an allow-`US` policy without a lookup. -/
theorem parse_failure_fails_closed_witness :
    (Match mAllowUS envParseFail ⟨"not-an-address"⟩).decision = false
    ∧ (Match mAllowUS envParseFail ⟨"not-an-address"⟩).resolverInvoked = false :=
  parse_failure_fails_closed mAllowUS envParseFail ⟨"not-an-address"⟩
    (Or.inl (List.cons_ne_nil "US" [])) rfl

/-- Witness for `lookup_error_fails_closed`: a failing database denies a
parsed address under an allow-`US` policy without consulting the lists. -/
theorem lookup_error_fails_closed_witness :
    (Match mAllowUSDbErr envParseOk ⟨"1.2.3.4:80"⟩).decision = false
    ∧ (Match mAllowUSDbErr envParseOk ⟨"1.2.3.4:80"⟩).policyConsulted = false :=
  lookup_error_fails_closed mAllowUSDbErr envParseOk ⟨"1.2.3.4:80"⟩ "1.2.3.4"
    "invalid database file" (Or.inl (List.cons_ne_nil "US" [])) rfl rfl

/-- Witness for `split_failure_fails_closed`: a bare IP with no port fails
the split and is denied under an allow-`US` policy without a lookup. -/
theorem split_failure_fails_closed_witness :
    (Match mAllowUS envSplitFail ⟨"1.2.3.4"⟩).decision = false
    ∧ (Match mAllowUS envSplitFail ⟨"1.2.3.4"⟩).resolverInvoked = false :=
  split_failure_fails_closed mAllowUS envSplitFail ⟨"1.2.3.4"⟩ ""
    "missing port in address" (Or.inl (List.cons_ne_nil "US" [])) rfl rfl

end CaddyGeo
